import Mathlib

/-!
Shallow embedding of the order-management engine of `OrderManager`
(src/tests/tradetest.py) of the AlgoBackend repository, together with
proofs settling the spec claims about it.

Conventions:
* Python dicts keyed by order id / instrument token / trading symbol are
  association lists with `alookup` / `ainsert` / `aerase` (dict read,
  `d[k] = v`, `del d[k]`).
* Prices (Python floats) are modelled as exact rationals.
* The external broker (KiteConnect) is an oracle `KiteEnv`: `ltp` is the
  live token lookup (`none` = the lookup raises) and `place_ok` says
  whether `kite.place_order` succeeds (`false` = it raises).
* MySQL is modelled as in-memory tables `db_orders` / `db_executions`
  plus an `instruments` table `db_instruments`; `DatabaseConnection`
  commits on normal exit and rolls back when the body raises, so a
  raised body leaves the tables unchanged.
* Timestamps (`NOW()`, TTL expiry of cachetools caches) are not
  modelled; no claim below depends on them.
-/

namespace AlgoTrade

/-- Dict read `m.get(k)` for a Python dict modelled as an association list. -/
def alookup {κ α : Type} [DecidableEq κ] : List (κ × α) → κ → Option α
  | [], _ => none
  | p :: rest, k => if k = p.1 then some p.2 else alookup rest k

/-- Dict delete `del m[k]`. -/
def aerase {κ α : Type} [DecidableEq κ] : List (κ × α) → κ → List (κ × α)
  | [], _ => []
  | p :: rest, k => if p.1 = k then aerase rest k else p :: aerase rest k

/-- Dict write `m[k] = v`. -/
def ainsert {κ α : Type} [DecidableEq κ] (m : List (κ × α)) (k : κ) (v : α) : List (κ × α) :=
  (k, v) :: aerase m k

/-- Order types accepted by `_check_and_execute_order` (line 480-491). -/
inductive OrderType
  | MARKET
  | LIMIT
  | SL
  | SLM
  deriving DecidableEq

/-- The `operation` field: transaction side. -/
inductive Operation
  | BUY
  | SELL
  deriving DecidableEq

/-- Lifecycle statuses appearing in the pending_orders table. -/
inductive OrderStatus
  | PENDING
  | PARTIALLY_EXECUTED
  | COMPLETED
  | CANCELLED
  | REJECTED
  deriving DecidableEq

/-- An in-memory order dict, as created by `add_order` / the test orders.
`triggered` models the `order.get('triggered', False)` flag read at line 392
(never set anywhere in the source). -/
structure Order where
  order_id : Nat
  trading_symbol : String
  instrument_token : Nat
  quantity : Nat
  order_type : OrderType
  limit_price : Option ℚ
  trigger_price : Option ℚ
  variety : String
  product : String
  validity : String
  operation : Operation
  execution_limit : Nat
  executions_done : Nat
  triggered : Bool
  deriving DecidableEq

/-- A row of the `pending_orders` table (the columns the engine touches). -/
structure DbOrder where
  trading_symbol : String
  instrument_token : Nat
  quantity : Nat
  order_type : OrderType
  limit_price : Option ℚ
  trigger_price : Option ℚ
  variety : String
  product : String
  validity : String
  operation : Operation
  execution_limit : Nat
  executions_done : Nat
  last_execution_price : Option ℚ
  status : OrderStatus
  deriving DecidableEq

/-- The `new_details` dict passed to `modify_order`: exactly the columns its
UPDATE statement sets (lines 561-585). -/
structure NewDetails where
  trading_symbol : String
  quantity : Nat
  order_type : OrderType
  limit_price : Option ℚ
  trigger_price : Option ℚ
  variety : String
  product : String
  validity : String
  operation : Operation
  deriving DecidableEq

/-- One tick from the feed: the fields the tick path reads. -/
structure Tick where
  instrument_token : Nat
  last_price : ℚ
  deriving DecidableEq

/-- Arguments of one `kite.place_order` call (line 497-506);
`exchange` is always `EXCHANGE_NSE`. -/
structure PlaceCall where
  variety : String
  exchange : String
  tradingsymbol : String
  transaction_type : Operation
  quantity : Nat
  product : String
  order_type : OrderType
  validity : String
  deriving DecidableEq

/-- A job on the durable-write queue `db_queue`: a database function plus its
arguments. The only job kind the claims touch is `_db_insert_order`. -/
inductive DbJob
  | insert_order (details : Order)
  deriving DecidableEq

/-- The external broker, as an oracle. -/
structure KiteEnv where
  ltp : String → Option Nat
  place_ok : Bool

/-- State of the engine: the caches, the shared Manager structures, the queues
and the durable tables, plus logs of the external calls issued. -/
structure EngineState where
  token_memo : List (String × Nat)
  instrument_cache : List (String × Nat)
  tick_cache : List (Nat × ℚ)
  order_cache : List (Nat × Order)
  orders : List (Nat × Order)
  tick_data : List (Nat × Option ℚ)
  orders_by_instrument : List (Nat × List Nat)
  order_queue : List Order
  db_queue : List DbJob
  subscribed_instruments : List Nat
  connection_ready : Bool
  db_orders : List (Nat × DbOrder)
  db_instruments : List (String × Nat)
  db_executions : List (Nat × ℚ)
  place_calls : List PlaceCall
  feed_subscribe_calls : List (List Nat)
  deriving DecidableEq

/-- Eligibility computation of `_check_and_execute_order` (lines 476-491).
`none` models the TypeError raised when Python compares a price to a missing
(`None`) limit or trigger price; the surrounding try/except then swallows it,
so `none` behaves like "not executed". -/
def should_execute (o : Order) (current_price : ℚ) : Option Bool :=
  match o.order_type with
  | OrderType.MARKET => some true
  | OrderType.LIMIT =>
      o.limit_price.map (fun lp =>
        decide ((o.operation = Operation.BUY ∧ current_price ≤ lp) ∨
                (o.operation = Operation.SELL ∧ lp ≤ current_price)))
  | OrderType.SL =>
      o.trigger_price.map (fun tp =>
        if o.operation = Operation.BUY then decide (tp ≤ current_price)
        else decide (current_price ≤ tp))
  | OrderType.SLM =>
      o.trigger_price.map (fun tp =>
        if o.operation = Operation.BUY then decide (tp ≤ current_price)
        else decide (current_price ≤ tp))

/-- The in-place `order['executions_done'] += 1` of line 509. -/
def incr_executions (o : Order) : Order :=
  { o with executions_done := o.executions_done + 1 }

/-- The `kite.place_order(...)` call of lines 497-506. -/
def mk_place_call (o : Order) : PlaceCall :=
  { variety := o.variety, exchange := "NSE", tradingsymbol := o.trading_symbol,
    transaction_type := o.operation, quantity := o.quantity, product := o.product,
    order_type := o.order_type, validity := o.validity }

/-- The UPDATE of lines 517-527.  MySQL evaluates SET clauses left to right
with updated values visible, so the status CASE sees the incremented
`executions_done`. -/
def db_apply_execution (rows : List (Nat × DbOrder)) (order_id : Nat) (price : ℚ) :
    List (Nat × DbOrder) :=
  rows.map (fun kv =>
    if kv.1 = order_id then
      (kv.1, { kv.2 with
        executions_done := kv.2.executions_done + 1,
        last_execution_price := some price,
        status :=
          if kv.2.execution_limit ≤ kv.2.executions_done + 1 then OrderStatus.COMPLETED
          else OrderStatus.PARTIALLY_EXECUTED })
    else kv)

/-- The UPDATE of `_complete_order` (lines 543-548). -/
def db_set_status (rows : List (Nat × DbOrder)) (order_id : Nat) (st : OrderStatus) :
    List (Nat × DbOrder) :=
  rows.map (fun kv => if kv.1 = order_id then (kv.1, { kv.2 with status := st }) else kv)

/-- Embedding of `_complete_order` (lines 538-554): set the durable status, then delete the
order from the shared `orders` dict.  Neither `order_cache` nor
`orders_by_instrument` is touched. -/
def complete_order (s : EngineState) (order_id : Nat) (st : OrderStatus) : EngineState :=
  { s with db_orders := db_set_status s.db_orders order_id st,
           orders := aerase s.orders order_id }

/-- State writes of a successful execution (lines 497-527): the `place_order`
call is logged, the in-place increment of line 509 updates the dict held by
the worker's order cache, and the execution row plus counter update are
written directly to the durable tables (not through `db_queue`). -/
def exec_writes (s : EngineState) (order_id : Nat) (order : Order) (tick : Tick) :
    EngineState :=
  { s with place_calls := s.place_calls ++ [mk_place_call order],
           order_cache := ainsert s.order_cache order_id (incr_executions order),
           db_executions := s.db_executions ++ [(order_id, tick.last_price)],
           db_orders := db_apply_execution s.db_orders order_id tick.last_price }

/-- Embedding of `_check_and_execute_order` (lines 467-536).  A failing `place_order`
raises before any state mutation; the attempted call is still recorded in the
call log. -/
def check_and_execute_order (env : KiteEnv) (s : EngineState) (order_id : Nat)
    (order : Order) (tick : Tick) : EngineState :=
  if order.execution_limit ≤ order.executions_done then
    complete_order s order_id OrderStatus.COMPLETED
  else
    match should_execute order tick.last_price with
    | some true =>
        if env.place_ok then
          if order.execution_limit ≤ (incr_executions order).executions_done then
            complete_order (exec_writes s order_id order tick) order_id
              OrderStatus.COMPLETED
          else
            { exec_writes s order_id order tick with
                orders := ainsert s.orders order_id (incr_executions order) }
        else
          { s with place_calls := s.place_calls ++ [mk_place_call order] }
    | _ => s

/-- The per-order loop of `_process_tick_data` (lines 390-393): iterate over a
snapshot of the index entry, re-reading the order cache at each step. -/
def run_tick_orders (env : KiteEnv) (tick : Tick) (ids : List Nat) (s : EngineState) :
    EngineState :=
  ids.foldl (fun st oid =>
    match alookup st.order_cache oid with
    | some o => if o.triggered then st else check_and_execute_order env st oid o tick
    | none => st) s

/-- Embedding of `_process_tick_data` (lines 375-396): cache the tick, publish the last
price, then evaluate every indexed order still present in the order cache. -/
def process_tick_data (env : KiteEnv) (s : EngineState) (tick : Tick) : EngineState :=
  let s1 : EngineState :=
    { s with tick_cache := ainsert s.tick_cache tick.instrument_token tick.last_price,
             tick_data := ainsert s.tick_data tick.instrument_token (some tick.last_price) }
  run_tick_orders env tick ((alookup s1.orders_by_instrument tick.instrument_token).getD []) s1

/-- A tick worker draining a sequence of ticks (`_tick_worker`, lines 363-373). -/
def process_ticks (env : KiteEnv) (s : EngineState) (ticks : List Tick) : EngineState :=
  ticks.foldl (process_tick_data env) s

/-- Embedding of `_get_instrument_token` (lines 176-191): the functools lru_cache memo, then
the TTL instrument cache, then a live `kite.ltp` lookup populating the cache.
The lru_cache memoizes successful returns only; exceptions are not cached.
The durable `instruments` table is not consulted here (it is read only by
`_init_caches` at startup).  `none` in the first component means the
exception of line 191 propagates; the state is returned alongside. -/
def get_instrument_token (env : KiteEnv) (s : EngineState) (sym : String) :
    Option Nat × EngineState :=
  match alookup s.token_memo sym with
  | some t => (some t, s)
  | none =>
    match alookup s.instrument_cache sym with
    | some t => (some t, { s with token_memo := ainsert s.token_memo sym t })
    | none =>
      match env.ltp sym with
      | some t =>
          (some t, { s with instrument_cache := ainsert s.instrument_cache sym t,
                            token_memo := ainsert s.token_memo sym t })
      | none => (none, s)

/-- Following the words of the spec (section 4.3): token resolution consults
the cache, else the durable store, else a live lookup, each miss populating
the cache.  Written for comparison with `get_instrument_token`, which is the
translation of the source. -/
def resolve_token_per_spec (env : KiteEnv) (s : EngineState) (sym : String) :
    Option Nat × EngineState :=
  match alookup s.instrument_cache sym with
  | some t => (some t, s)
  | none =>
    match alookup s.db_instruments sym with
    | some t => (some t, { s with instrument_cache := ainsert s.instrument_cache sym t })
    | none =>
      match env.ltp sym with
      | some t => (some t, { s with instrument_cache := ainsert s.instrument_cache sym t })
      | none => (none, s)

/-- Embedding of `subscribe_instruments` (lines 270-291): no-op with a warning when the
connection is not ready; otherwise subscribe the genuinely new tokens on the
ticker, extend the tracked list and initialise their `tick_data` slots. -/
def subscribe_instruments (s : EngineState) (insts : List Nat) : EngineState :=
  if s.connection_ready then
    let news := insts.filter (fun i => decide (i ∉ s.subscribed_instruments))
    if news = [] then s
    else
      { s with feed_subscribe_calls := s.feed_subscribe_calls ++ [news],
               subscribed_instruments := s.subscribed_instruments ++ news,
               tick_data := news.foldl (fun td i => ainsert td i none) s.tick_data }
  else s

/-- Embedding of `add_order` (lines 443-465): resolve the token, cache the order, enqueue
the durable insert, enqueue the order for indexing, subscribe if needed.  A
token-resolution failure re-raises (first component `false`) before any of
those writes. -/
def add_order (env : KiteEnv) (s : EngineState) (od : Order) : Bool × EngineState :=
  match get_instrument_token env s od.trading_symbol with
  | (none, s1) => (false, s1)
  | (some token, s1) =>
    let od' := { od with instrument_token := token }
    let s2 : EngineState :=
      { s1 with order_cache := ainsert s1.order_cache od'.order_id od',
                db_queue := s1.db_queue ++ [DbJob.insert_order od'],
                order_queue := s1.order_queue ++ [od'] }
    if token ∈ s2.subscribed_instruments then (true, s2)
    else (true, subscribe_instruments s2 [token])

/-- Embedding of the `_handle_incoming_orders` body (lines 398-418): store the order in the
shared dict and append its id to the instrument index. -/
def handle_incoming_order (s : EngineState) (o : Order) : EngineState :=
  { s with orders := ainsert s.orders o.order_id o,
           orders_by_instrument :=
             ainsert s.orders_by_instrument o.instrument_token
               ((alookup s.orders_by_instrument o.instrument_token).getD [] ++ [o.order_id]) }

/-- The dict merge that line 588 applies: `self.orders[order_id]` on the
Manager dict returns a detached copy of the stored order, `.update` merges the
new details into that copy, and the copy is never reassigned — so this merge
result never reaches the shared dict (contrast with the get-modify-reassign
pattern the source uses at lines 411-413 and 533). -/
def merge_details (o : Order) (nd : NewDetails) : Order :=
  { o with trading_symbol := nd.trading_symbol, quantity := nd.quantity,
           order_type := nd.order_type, limit_price := nd.limit_price,
           trigger_price := nd.trigger_price, variety := nd.variety,
           product := nd.product, validity := nd.validity, operation := nd.operation }

/-- The column updates of modify_order's UPDATE (lines 561-585). -/
def apply_new_details (row : DbOrder) (nd : NewDetails) : DbOrder :=
  { row with trading_symbol := nd.trading_symbol, quantity := nd.quantity,
             order_type := nd.order_type, limit_price := nd.limit_price,
             trigger_price := nd.trigger_price, variety := nd.variety,
             product := nd.product, validity := nd.validity, operation := nd.operation }

/-- Embedding of `modify_order` (lines 556-595): the UPDATE is guarded by
`status = 'PENDING'`; on a positive rowcount line 588 runs
`self.orders[order_id].update(new_details)`, which mutates only the detached
Manager-proxy copy of the order, so the shared orders dict is left unmerged.
If the order is missing from the shared dict, the KeyError raised inside the
`with` block rolls the transaction back, so the durable row is left unchanged
and the exception propagates (first component `false`). -/
def modify_order (s : EngineState) (order_id : Nat) (nd : NewDetails) :
    Bool × EngineState :=
  match alookup s.db_orders order_id with
  | some row =>
    if row.status = OrderStatus.PENDING then
      match alookup s.orders order_id with
      | some _ =>
          (true, { s with db_orders := ainsert s.db_orders order_id (apply_new_details row nd) })
      | none => (false, s)
    else (true, s)
  | none => (true, s)

/-- Embedding of `cancel_order` (lines 597-618): the UPDATE to CANCELLED is guarded by
`status = 'PENDING'`; on a positive rowcount the order is deleted from the
shared orders dict, otherwise only a warning is logged. -/
def cancel_order (s : EngineState) (order_id : Nat) : Bool × EngineState :=
  match alookup s.db_orders order_id with
  | some row =>
    if row.status = OrderStatus.PENDING then
      (true, { s with db_orders := ainsert s.db_orders order_id { row with status := OrderStatus.CANCELLED },
                      orders := aerase s.orders order_id })
    else (true, s)
  | none => (true, s)

/-- Interleaving model of the critical section of `_check_and_execute_order`
for one MARKET order evaluated by several tick workers against a shared
executions counter.  Each worker runs two observable phases: phase 0 is the
limit check of line 471 (MARKET orders pass eligibility unconditionally,
lines 480-481); phase 1 is the `place_order` call plus the counter increment
of lines 497-509.  `race_step s i` advances worker `i` by one phase; nothing
in the source serialises the two phases per order. -/
def race_step (s : Nat × Nat × Nat × List Nat) (i : Nat) : Nat × Nat × Nat × List Nat :=
  match s with
  | (execs, limit, calls, workers) =>
    match workers.get? i with
    | some 0 =>
        if execs < limit then (execs, limit, calls, workers.set i 1)
        else (execs, limit, calls, workers.set i 2)
    | some 1 => (execs + 1, limit, calls + 1, workers.set i 2)
    | _ => (execs, limit, calls, workers)

/-- Run the worker interleaving dictated by a schedule of worker indices. -/
def race_run (s : Nat × Nat × Nat × List Nat) (sched : List Nat) :
    Nat × Nat × Nat × List Nat :=
  sched.foldl race_step s

/-- External `place_order` calls issued during a schedule. -/
def race_calls (s : Nat × Nat × Nat × List Nat) : Nat := s.2.2.1

/-- The execution limit of the raced order. -/
def race_limit (s : Nat × Nat × Nat × List Nat) : Nat := s.2.1

/-- A base concrete order used by the concrete instantiations below. -/
def sampleOrder : Order :=
  { order_id := 1, trading_symbol := "EDELWEISS", instrument_token := 7, quantity := 10,
    order_type := OrderType.MARKET, limit_price := none, trigger_price := none,
    variety := "REGULAR", product := "CNC", validity := "DAY",
    operation := Operation.BUY, execution_limit := 1, executions_done := 0,
    triggered := false }

/-- A base concrete pending_orders row matching `sampleOrder`. -/
def sampleRow : DbOrder :=
  { trading_symbol := "EDELWEISS", instrument_token := 7, quantity := 10,
    order_type := OrderType.MARKET, limit_price := none, trigger_price := none,
    variety := "REGULAR", product := "CNC", validity := "DAY",
    operation := Operation.BUY, execution_limit := 1, executions_done := 0,
    last_execution_price := none, status := OrderStatus.PENDING }

/-- An engine state holding one order, indexed and cached everywhere. -/
def sampleState (o : Order) (row : DbOrder) : EngineState :=
  { token_memo := [], instrument_cache := [], tick_cache := [],
    order_cache := [(o.order_id, o)], orders := [(o.order_id, o)], tick_data := [],
    orders_by_instrument := [(o.instrument_token, [o.order_id])], order_queue := [],
    db_queue := [], subscribed_instruments := [o.instrument_token],
    connection_ready := true, db_orders := [(o.order_id, row)], db_instruments := [],
    db_executions := [], place_calls := [], feed_subscribe_calls := [] }

/-- A broker oracle whose live lookup fails and whose order placement works. -/
def sampleEnv : KiteEnv := { ltp := fun _ => none, place_ok := true }


/-- A LIMIT BUY order with limit price 100 (spec scenario for C1). -/
def c1order : Order :=
  { sampleOrder with
    order_type := OrderType.LIMIT
    limit_price := some 100 }

/-- A MARKET order allowed two fills. -/
def c2order : Order :=
  { sampleOrder with execution_limit := 2 }

/-- Engine state holding `c2order`. -/
def c2state : EngineState :=
  sampleState c2order { sampleRow with execution_limit := 2 }

/-- A tick for instrument 7 at price 100. -/
def tick7 : Tick :=
  { instrument_token := 7, last_price := 100 }

/-- An engine state with nothing cached and nothing stored. -/
def emptyState : EngineState :=
  { token_memo := [], instrument_cache := [], tick_cache := [], order_cache := [],
    orders := [], tick_data := [], orders_by_instrument := [], order_queue := [],
    db_queue := [], subscribed_instruments := [], connection_ready := true,
    db_orders := [], db_instruments := [], db_executions := [], place_calls := [],
    feed_subscribe_calls := [] }

/-- A broker whose live lookup resolves symbol X to token 7. -/
def c5env : KiteEnv :=
  { ltp := fun sym => if sym = "X" then some 7 else none, place_ok := true }

/-- A state whose durable instruments table maps symbol X to token 42 while
both in-memory token caches are empty. -/
def c5state : EngineState :=
  { emptyState with db_instruments := [("X", 42)] }

/-- Replacement details for a modification attempt. -/
def c8nd : NewDetails :=
  { trading_symbol := "EDELWEISS", quantity := 5, order_type := OrderType.LIMIT,
    limit_price := some 120, trigger_price := none, variety := "REGULAR",
    product := "CNC", validity := "DAY", operation := Operation.SELL }

/-- A broker whose order placement fails. -/
def c9env : KiteEnv := { ltp := fun _ => none, place_ok := false }

theorem alookup_aerase {κ α : Type} [DecidableEq κ] (m : List (κ × α)) (k k' : κ) :
    alookup (aerase m k) k' = if k' = k then none else alookup m k' := by
  induction m with
  | nil => simp [aerase, alookup]
  | cons p rest ih =>
    by_cases h1 : p.1 = k <;> by_cases h2 : k' = k <;>
      simp_all [aerase, alookup]
    exact fun h => h1 h.symm

theorem alookup_ainsert {κ α : Type} [DecidableEq κ] (m : List (κ × α)) (k : κ) (v : α)
    (k' : κ) : alookup (ainsert m k v) k' = if k' = k then some v else alookup m k' := by
  by_cases h : k' = k <;> simp [ainsert, alookup, h, alookup_aerase]

/-- Evolution relation on the order cache along tick processing: every surviving
entry descends from an entry of the initial cache with a counter that never
decreased, never passed the execution limit it started under, and an unchanged
limit. -/
def cache_mono (s s' : EngineState) : Prop :=
  ∀ k o', alookup s'.order_cache k = some o' →
    ∃ o, alookup s.order_cache k = some o ∧
      o.executions_done ≤ o'.executions_done ∧
      o'.executions_done ≤ max o.executions_done o.execution_limit ∧
      o'.execution_limit = o.execution_limit

theorem cache_mono_refl (s : EngineState) : cache_mono s s := by
  intro k o' h
  exact ⟨o', h, le_refl _, le_max_left _ _, rfl⟩

theorem cache_mono_trans {s1 s2 s3 : EngineState} (h12 : cache_mono s1 s2)
    (h23 : cache_mono s2 s3) : cache_mono s1 s3 := by
  intro k o3 h3
  obtain ⟨o2, hl2, hmono2, hbd2, hlim2⟩ := h23 k o3 h3
  obtain ⟨o1, hl1, hmono1, hbd1, hlim1⟩ := h12 k o2 hl2
  refine ⟨o1, hl1, le_trans hmono1 hmono2, ?_, hlim2.trans hlim1⟩
  calc o3.executions_done ≤ max o2.executions_done o2.execution_limit := hbd2
    _ ≤ max (max o1.executions_done o1.execution_limit) o1.execution_limit := by
        rw [hlim1]; exact max_le_max_right _ hbd1
    _ = max o1.executions_done o1.execution_limit := by rw [max_assoc, max_self]

theorem check_and_execute_cache_mono (env : KiteEnv) (s : EngineState) (oid : Nat)
    (order : Order) (tick : Tick) (hord : alookup s.order_cache oid = some order) :
    cache_mono s (check_and_execute_order env s oid order tick) := by
  unfold check_and_execute_order
  by_cases hlim : order.execution_limit ≤ order.executions_done
  · rw [if_pos hlim]
    exact cache_mono_refl _
  · rw [if_neg hlim]
    cases hse : should_execute order tick.last_price with
    | none => exact cache_mono_refl _
    | some b =>
      cases b with
      | false => exact cache_mono_refl _
      | true =>
        by_cases hok : env.place_ok
        · simp only [hok, if_true]
          have hwr : ∀ k o', alookup (ainsert s.order_cache oid (incr_executions order)) k = some o' →
              ∃ o, alookup s.order_cache k = some o ∧
                o.executions_done ≤ o'.executions_done ∧
                o'.executions_done ≤ max o.executions_done o.execution_limit ∧
                o'.execution_limit = o.execution_limit := by
            intro k o' h
            rw [alookup_ainsert] at h
            by_cases hk : k = oid
            · rw [if_pos hk] at h
              refine ⟨order, hk ▸ hord, ?_⟩
              cases h
              refine ⟨Nat.le_succ _, ?_, rfl⟩
              have : order.executions_done + 1 ≤ order.execution_limit := Nat.lt_of_not_le hlim
              exact le_trans this (le_max_right _ _)
            · rw [if_neg hk] at h
              exact ⟨o', h, le_refl _, le_max_left _ _, rfl⟩
          by_cases hdone : order.execution_limit ≤ (incr_executions order).executions_done
          · rw [if_pos hdone]
            exact hwr
          · rw [if_neg hdone]
            exact hwr
        · simp only [hok, if_false]
          exact cache_mono_refl _

theorem run_tick_orders_cache_mono (env : KiteEnv) (tick : Tick) (ids : List Nat) :
    ∀ s : EngineState, cache_mono s (run_tick_orders env tick ids s) := by
  induction ids with
  | nil => intro s; exact cache_mono_refl _
  | cons oid rest ih =>
    intro s
    have hstep : run_tick_orders env tick (oid :: rest) s =
        run_tick_orders env tick rest
          (match alookup s.order_cache oid with
           | some o => if o.triggered then s else check_and_execute_order env s oid o tick
           | none => s) := rfl
    rw [hstep]
    cases hord : alookup s.order_cache oid with
    | none => simpa [hord] using ih s
    | some o =>
      by_cases htr : o.triggered
      · simpa [hord, htr] using ih s
      · have h1 : cache_mono s (check_and_execute_order env s oid o tick) :=
          check_and_execute_cache_mono env s oid o tick hord
        have h2 := ih (check_and_execute_order env s oid o tick)
        simpa [hord, htr] using cache_mono_trans h1 h2

theorem process_tick_cache_mono (env : KiteEnv) (s : EngineState) (tick : Tick) :
    cache_mono s (process_tick_data env s tick) := by
  intro k o' h
  simp only [process_tick_data] at h
  obtain ⟨o, ho, h2⟩ := run_tick_orders_cache_mono env tick _ _ k o' h
  exact ⟨o, ho, h2⟩

theorem process_ticks_cache_mono (env : KiteEnv) (ticks : List Tick) :
    ∀ s : EngineState, cache_mono s (process_ticks env s ticks) := by
  induction ticks with
  | nil => intro s; exact cache_mono_refl _
  | cons t rest ih =>
    intro s
    exact cache_mono_trans (process_tick_cache_mono env s t) (ih _)

theorem check_and_execute_entry (env : KiteEnv) (s : EngineState) (oid : Nat)
    (order : Order) (tick : Tick) (o' : Order)
    (hord : alookup s.order_cache oid = some order)
    (h : alookup (check_and_execute_order env s oid order tick).order_cache oid = some o') :
    o' = order ∨ (o' = incr_executions order ∧
      order.executions_done < order.execution_limit) := by
  by_cases hlim : order.execution_limit ≤ order.executions_done
  · have heq : check_and_execute_order env s oid order tick =
        complete_order s oid OrderStatus.COMPLETED := by
      unfold check_and_execute_order
      rw [if_pos hlim]
    rw [heq] at h
    have h' : alookup s.order_cache oid = some o' := h
    rw [hord] at h'
    exact Or.inl (Option.some_inj.mp h').symm
  · cases hse : should_execute order tick.last_price with
    | none =>
      have heq : check_and_execute_order env s oid order tick = s := by
        unfold check_and_execute_order
        rw [if_neg hlim, hse]
      rw [heq, hord] at h
      exact Or.inl (Option.some_inj.mp h).symm
    | some b =>
      cases b with
      | false =>
        have heq : check_and_execute_order env s oid order tick = s := by
          unfold check_and_execute_order
          rw [if_neg hlim, hse]
        rw [heq, hord] at h
        exact Or.inl (Option.some_inj.mp h).symm
      | true =>
        by_cases hok : env.place_ok = true
        · have hcache : (check_and_execute_order env s oid order tick).order_cache =
              ainsert s.order_cache oid (incr_executions order) := by
            unfold check_and_execute_order
            rw [if_neg hlim, hse, if_pos hok]
            by_cases hdone : order.execution_limit ≤ (incr_executions order).executions_done
            · rw [if_pos hdone]; rfl
            · rw [if_neg hdone]; rfl
          rw [hcache, alookup_ainsert, if_pos rfl] at h
          exact Or.inr ⟨(Option.some_inj.mp h).symm, Nat.lt_of_not_le hlim⟩
        · have heq : check_and_execute_order env s oid order tick =
              { s with place_calls := s.place_calls ++ [mk_place_call order] } := by
            unfold check_and_execute_order
            rw [if_neg hlim, hse, if_neg hok]
          rw [heq] at h
          have h' : alookup s.order_cache oid = some o' := h
          rw [hord] at h'
          exact Or.inl (Option.some_inj.mp h').symm

/-- Claim C1: execution eligibility is decided exactly by order_type: a MARKET
order is always eligible; a LIMIT order is eligible iff (BUY and price at most
the limit price) or (SELL and price at least the limit price); an SL or SL-M
order is eligible iff (BUY and price at least the trigger price) or (SELL and
price at most the trigger price). -/
theorem trigger_eligibility_by_order_type (o : Order) (p : ℚ) :
    (o.order_type = OrderType.MARKET → should_execute o p = some true) ∧
    (∀ lp : ℚ, o.order_type = OrderType.LIMIT → o.limit_price = some lp →
      (should_execute o p = some true ↔
        (o.operation = Operation.BUY ∧ p ≤ lp) ∨
        (o.operation = Operation.SELL ∧ lp ≤ p))) ∧
    (∀ tp : ℚ, (o.order_type = OrderType.SL ∨ o.order_type = OrderType.SLM) →
      o.trigger_price = some tp →
      (should_execute o p = some true ↔
        (o.operation = Operation.BUY ∧ tp ≤ p) ∨
        (o.operation = Operation.SELL ∧ p ≤ tp))) := by
  refine ⟨fun h => by simp [should_execute, h], ?_, ?_⟩
  · intro lp hty hlp
    simp only [should_execute, hty, hlp, Option.map_some', Option.some_inj,
      decide_eq_true_eq]
  · intro tp hty htp
    have hcase : ∀ hty1 : o.order_type = OrderType.SL ∨ o.order_type = OrderType.SLM,
        should_execute o p = o.trigger_price.map (fun tq =>
          if o.operation = Operation.BUY then decide (tq ≤ p) else decide (p ≤ tq)) := by
      rintro (h | h) <;> simp [should_execute, h]
    rw [hcase hty, htp]
    cases hop : o.operation <;>
      simp [hop, Option.map_some', decide_eq_true_eq]

/-- Claim C2: along any sequence of tick evaluations the executions_done
counter of an order is monotonically non-decreasing and never exceeds its
execution limit; a single `_check_and_execute_order` call never decrements it
and increments it only when it was strictly below the limit beforehand. -/
theorem executions_done_monotone_bounded :
    (∀ (env : KiteEnv) (s : EngineState) (oid : Nat) (o : Order) (tick : Tick) (o' : Order),
      alookup s.order_cache oid = some o →
      alookup (check_and_execute_order env s oid o tick).order_cache oid = some o' →
      o' = o ∨ (o' = incr_executions o ∧ o.executions_done < o.execution_limit)) ∧
    (∀ (env : KiteEnv) (s : EngineState) (ticks : List Tick) (oid : Nat) (o o' : Order),
      alookup s.order_cache oid = some o →
      alookup (process_ticks env s ticks).order_cache oid = some o' →
      o.executions_done ≤ o.execution_limit →
      o.executions_done ≤ o'.executions_done ∧
        o'.executions_done ≤ o.execution_limit ∧
        o'.execution_limit = o.execution_limit) := by
  constructor
  · intro env s oid o tick o' hord h
    exact check_and_execute_entry env s oid o tick o' hord h
  · intro env s ticks oid o o' h0 h1 hb
    obtain ⟨o0, hl0, hmono, hbd, hlim⟩ := process_ticks_cache_mono env ticks s oid o' h1
    rw [h0] at hl0
    cases Option.some_inj.mp hl0
    refine ⟨hmono, ?_, hlim⟩
    calc o'.executions_done ≤ max o.executions_done o.execution_limit := hbd
      _ = o.execution_limit := max_eq_right hb

theorem trigger_eligibility_witness :
    should_execute c1order 99 = some true :=
  ((trigger_eligibility_by_order_type c1order 99).2.1 100 rfl rfl).mpr
    (Or.inl ⟨rfl, by decide⟩)

theorem executions_done_monotone_bounded_witness :
    c2order.executions_done ≤ (incr_executions c2order).executions_done ∧
      (incr_executions c2order).executions_done ≤ c2order.execution_limit ∧
      (incr_executions c2order).execution_limit = c2order.execution_limit :=
  executions_done_monotone_bounded.2 sampleEnv c2state [tick7] 1 c2order
    (incr_executions c2order) (by decide) (by decide) (by decide)

theorem alookup_db_set_status (rows : List (Nat × DbOrder)) (oid : Nat)
    (st : OrderStatus) (k : Nat) :
    alookup (db_set_status rows oid st) k =
      (alookup rows k).map (fun row => if k = oid then { row with status := st } else row) := by
  induction rows with
  | nil => simp [db_set_status, alookup]
  | cons p rest ih =>
    by_cases hp : p.1 = oid <;> by_cases hk : k = p.1 <;>
      simp_all [db_set_status, alookup]

theorem alookup_db_apply_execution (rows : List (Nat × DbOrder)) (oid : Nat)
    (price : ℚ) (k : Nat) :
    alookup (db_apply_execution rows oid price) k =
      (alookup rows k).map (fun row =>
        if k = oid then
          { row with executions_done := row.executions_done + 1,
                     last_execution_price := some price,
                     status :=
                       if row.execution_limit ≤ row.executions_done + 1 then
                         OrderStatus.COMPLETED
                       else OrderStatus.PARTIALLY_EXECUTED }
        else row) := by
  induction rows with
  | nil => simp [db_apply_execution, alookup]
  | cons p rest ih =>
    by_cases hp : p.1 = oid <;> by_cases hk : k = p.1 <;>
      simp_all [db_apply_execution, alookup]

/-- Claim C3 counterexample: a MARKET BUY order with execution limit 1 is
executed by one tick, reaches its limit, gets durable status COMPLETED and is
deleted from the shared orders dict, yet its id is still present in the
instrument-to-orders index afterwards, contradicting the claimed eviction
from the index. -/
theorem completed_order_remains_indexed_cex :
    (alookup (process_tick_data sampleEnv (sampleState sampleOrder sampleRow) tick7).db_orders
        1).map DbOrder.status = some OrderStatus.COMPLETED ∧
    alookup (process_tick_data sampleEnv (sampleState sampleOrder sampleRow) tick7).orders
        1 = none ∧
    alookup (process_tick_data sampleEnv (sampleState sampleOrder sampleRow)
        tick7).orders_by_instrument 7 = some [1] := by decide

/-- Claim C3 as amended: when an execution makes executions_done reach the
execution limit, the order's durable status becomes COMPLETED and the order is
deleted from the shared orders dict, but it is not removed from the
instrument-to-orders index (and the worker's order cache still holds the
incremented order). -/
theorem completed_order_eviction_amended (env : KiteEnv) (s : EngineState) (oid : Nat)
    (o : Order) (tick : Tick) (h1 : env.place_ok = true)
    (h2 : o.executions_done < o.execution_limit)
    (h3 : should_execute o tick.last_price = some true)
    (h4 : o.execution_limit ≤ o.executions_done + 1) :
    alookup (check_and_execute_order env s oid o tick).orders oid = none ∧
    (check_and_execute_order env s oid o tick).orders_by_instrument =
      s.orders_by_instrument ∧
    alookup (check_and_execute_order env s oid o tick).order_cache oid =
      some (incr_executions o) ∧
    (∀ row, alookup s.db_orders oid = some row →
      ∃ row', alookup (check_and_execute_order env s oid o tick).db_orders oid = some row' ∧
        row'.status = OrderStatus.COMPLETED) := by
  have h4' : o.execution_limit ≤ (incr_executions o).executions_done := h4
  have heq : check_and_execute_order env s oid o tick =
      complete_order (exec_writes s oid o tick) oid OrderStatus.COMPLETED := by
    unfold check_and_execute_order
    rw [if_neg (Nat.not_le.mpr h2), h3, if_pos h1, if_pos h4']
  refine ⟨?_, ?_, ?_, ?_⟩
  · rw [heq]
    show alookup (aerase s.orders oid) oid = none
    rw [alookup_aerase, if_pos rfl]
  · rw [heq]; rfl
  · rw [heq]
    show alookup (ainsert s.order_cache oid (incr_executions o)) oid =
      some (incr_executions o)
    rw [alookup_ainsert, if_pos rfl]
  · intro row hrow
    rw [heq]
    show ∃ row', alookup (db_set_status (db_apply_execution s.db_orders oid tick.last_price)
        oid OrderStatus.COMPLETED) oid = some row' ∧ row'.status = OrderStatus.COMPLETED
    rw [alookup_db_set_status, alookup_db_apply_execution, hrow]
    exact ⟨_, rfl, by simp⟩

theorem completed_order_eviction_witness :
    alookup (check_and_execute_order sampleEnv (sampleState sampleOrder sampleRow) 1
        sampleOrder tick7).orders 1 = none ∧
    (check_and_execute_order sampleEnv (sampleState sampleOrder sampleRow) 1 sampleOrder
        tick7).orders_by_instrument = (sampleState sampleOrder sampleRow).orders_by_instrument ∧
    (∃ row', alookup (check_and_execute_order sampleEnv (sampleState sampleOrder sampleRow) 1
        sampleOrder tick7).db_orders 1 = some row' ∧
      row'.status = OrderStatus.COMPLETED) := by
  have T := completed_order_eviction_amended sampleEnv (sampleState sampleOrder sampleRow)
    1 sampleOrder tick7 rfl (by decide) (by decide) (by decide)
  exact ⟨T.1, T.2.1, T.2.2.2 sampleRow (by decide)⟩

/-- Claim C4 counterexample: an eligible execution that does not reach the
execution limit places the external order yet enqueues nothing on the
durable-write queue; the execution row is written to the durable store
directly by the tick worker. -/
theorem exec_enqueues_no_db_job_cex :
    (check_and_execute_order sampleEnv c2state 1 c2order tick7).place_calls =
      [mk_place_call c2order] ∧
    (check_and_execute_order sampleEnv c2state 1 c2order tick7).db_queue = [] ∧
    (check_and_execute_order sampleEnv c2state 1 c2order tick7).db_executions =
      [(1, (100 : ℚ))] := by decide

/-- Claim C4 as amended: after the external order-placement call the tick
worker increments executions_done and writes the execution row and the updated
counters synchronously to the durable store itself (the durable-write queue is
untouched), and writes the updated order back into the shared orders dict (the
in-place increment also updates the worker's order-cache entry). -/
theorem exec_direct_db_write_amended (env : KiteEnv) (s : EngineState) (oid : Nat)
    (o : Order) (tick : Tick) (h1 : env.place_ok = true)
    (h2 : o.executions_done < o.execution_limit)
    (h3 : should_execute o tick.last_price = some true)
    (h4 : o.executions_done + 1 < o.execution_limit) :
    check_and_execute_order env s oid o tick =
      { exec_writes s oid o tick with orders := ainsert s.orders oid (incr_executions o) } ∧
    (check_and_execute_order env s oid o tick).db_queue = s.db_queue ∧
    (check_and_execute_order env s oid o tick).db_executions =
      s.db_executions ++ [(oid, tick.last_price)] ∧
    (check_and_execute_order env s oid o tick).place_calls =
      s.place_calls ++ [mk_place_call o] ∧
    alookup (check_and_execute_order env s oid o tick).orders oid =
      some (incr_executions o) := by
  have h4' : ¬ o.execution_limit ≤ (incr_executions o).executions_done :=
    Nat.not_le.mpr h4
  have heq : check_and_execute_order env s oid o tick =
      { exec_writes s oid o tick with orders := ainsert s.orders oid (incr_executions o) } := by
    unfold check_and_execute_order
    rw [if_neg (Nat.not_le.mpr h2), h3, if_pos h1, if_neg h4']
  refine ⟨heq, ?_, ?_, ?_, ?_⟩
  · rw [heq]; rfl
  · rw [heq]; rfl
  · rw [heq]; rfl
  · rw [heq]
    show alookup (ainsert s.orders oid (incr_executions o)) oid = some (incr_executions o)
    rw [alookup_ainsert, if_pos rfl]

theorem exec_direct_db_write_witness :
    check_and_execute_order sampleEnv c2state 1 c2order tick7 =
      { exec_writes c2state 1 c2order tick7 with
          orders := ainsert c2state.orders 1 (incr_executions c2order) } :=
  (exec_direct_db_write_amended sampleEnv c2state 1 c2order tick7 rfl (by decide)
    (by decide) (by decide)).1

/-- Claim C5 counterexample: with empty token caches, a durable instruments
table mapping X to 42 and a live feed mapping X to 7, the source resolver
returns the live token 7, showing the durable store is not consulted before
the live lookup as the claim states (the spec-following resolver returns 42). -/
theorem token_resolution_skips_durable_cex :
    (get_instrument_token c5env c5state "X").1 = some 7 ∧
    (resolve_token_per_spec c5env c5state "X").1 = some 42 ∧
    (some 7 : Option Nat) ≠ some 42 := by decide

/-- Claim C5 as amended: add_order resolves the instrument token by consulting
the lru memo and the instrument-token cache first and, on miss, going directly
to a live lookup against the external feed, which populates both caches; the
durable store is not consulted during resolution and has no effect on the
resolved token. -/
theorem token_resolution_amended (env : KiteEnv) (s : EngineState) (sym : String)
    (t : Nat) (h1 : alookup s.token_memo sym = none)
    (h2 : alookup s.instrument_cache sym = none) (h3 : env.ltp sym = some t) :
    get_instrument_token env s sym =
      (some t, { s with instrument_cache := ainsert s.instrument_cache sym t,
                        token_memo := ainsert s.token_memo sym t }) ∧
    (∀ db : List (String × Nat),
      (get_instrument_token env { s with db_instruments := db } sym).1 = some t) := by
  constructor
  · unfold get_instrument_token
    rw [h1, h2, h3]
  · intro db
    have h1' : alookup ({ s with db_instruments := db } : EngineState).token_memo sym =
      none := h1
    have h2' : alookup ({ s with db_instruments := db } : EngineState).instrument_cache
      sym = none := h2
    unfold get_instrument_token
    rw [h1', h2', h3]

theorem token_resolution_witness :
    get_instrument_token c5env c5state "X" =
      (some 7, { c5state with
          instrument_cache := ainsert c5state.instrument_cache "X" 7,
          token_memo := ainsert c5state.token_memo "X" 7 }) :=
  (token_resolution_amended c5env c5state "X" 7 rfl rfl rfl).1

/-- Claim C6: when instrument-token resolution fails inside add_order, the
error propagates to the caller and the state is returned exactly unchanged: no
order-cache write, no durable-insert job, no indexing enqueue, no feed
subscription. -/
theorem add_order_token_failure_atomic (env : KiteEnv) (s : EngineState) (od : Order)
    (h1 : alookup s.token_memo od.trading_symbol = none)
    (h2 : alookup s.instrument_cache od.trading_symbol = none)
    (h3 : env.ltp od.trading_symbol = none) :
    add_order env s od = (false, s) := by
  unfold add_order get_instrument_token
  rw [h1, h2, h3]

theorem add_order_token_failure_witness :
    add_order sampleEnv (sampleState sampleOrder sampleRow) sampleOrder =
      (false, sampleState sampleOrder sampleRow) :=
  add_order_token_failure_atomic sampleEnv (sampleState sampleOrder sampleRow)
    sampleOrder rfl rfl rfl

/-- Claim C7 counterexample: cancelling the PENDING order 1 sets its durable
status to CANCELLED and deletes it from the shared orders dict, yet the order
is still present in the LRU order cache that gates tick evaluation (line 391),
and the next tick for its instrument still issues an external place_order
call for the cancelled order — contradicting the claimed removal from the
in-memory order cache. -/
theorem cancelled_order_still_cached_cex :
    (alookup (cancel_order (sampleState sampleOrder sampleRow) 1).2.db_orders 1).map
        DbOrder.status = some OrderStatus.CANCELLED ∧
    alookup (cancel_order (sampleState sampleOrder sampleRow) 1).2.orders 1 = none ∧
    alookup (cancel_order (sampleState sampleOrder sampleRow) 1).2.order_cache 1 =
      some sampleOrder ∧
    (process_tick_data sampleEnv (cancel_order (sampleState sampleOrder sampleRow) 1).2
        tick7).place_calls = [mk_place_call sampleOrder] := by decide

/-- Claim C7 as amended: cancelling an order whose durable status is PENDING
sets the durable status to CANCELLED and deletes the order from the shared
orders dict only — the LRU order cache and the instrument index are left
untouched, so the cancelled order remains visible to tick evaluation;
cancelling when the status is not PENDING (or the row is absent) returns
normally as a no-op leaving the whole state unchanged. -/
theorem cancel_order_pending_guard (s : EngineState) (oid : Nat) :
    (∀ row, alookup s.db_orders oid = some row → row.status = OrderStatus.PENDING →
      cancel_order s oid =
        (true, { s with
            db_orders := ainsert s.db_orders oid { row with status := OrderStatus.CANCELLED },
            orders := aerase s.orders oid }) ∧
      (cancel_order s oid).2.order_cache = s.order_cache ∧
      (cancel_order s oid).2.orders_by_instrument = s.orders_by_instrument) ∧
    (∀ row, alookup s.db_orders oid = some row → row.status ≠ OrderStatus.PENDING →
      cancel_order s oid = (true, s)) ∧
    (alookup s.db_orders oid = none → cancel_order s oid = (true, s)) := by
  refine ⟨?_, ?_, ?_⟩
  · intro row h hs
    have heq : cancel_order s oid =
        (true, { s with
            db_orders := ainsert s.db_orders oid { row with status := OrderStatus.CANCELLED },
            orders := aerase s.orders oid }) := by
      unfold cancel_order
      simp only [h]
      rw [if_pos hs]
    exact ⟨heq, by rw [heq], by rw [heq]⟩
  · intro row h hs
    unfold cancel_order
    simp only [h]
    rw [if_neg hs]
  · intro h
    unfold cancel_order
    simp only [h]

theorem cancel_order_pending_witness :
    cancel_order (sampleState sampleOrder sampleRow) 1 =
      (true, { sampleState sampleOrder sampleRow with
          db_orders := ainsert (sampleState sampleOrder sampleRow).db_orders 1
            { sampleRow with status := OrderStatus.CANCELLED },
          orders := aerase (sampleState sampleOrder sampleRow).orders 1 }) ∧
    (cancel_order (sampleState sampleOrder sampleRow) 1).2.order_cache =
      (sampleState sampleOrder sampleRow).order_cache :=
  ⟨((cancel_order_pending_guard (sampleState sampleOrder sampleRow) 1).1 sampleRow
      rfl rfl).1,
   ((cancel_order_pending_guard (sampleState sampleOrder sampleRow) 1).1 sampleRow
      rfl rfl).2.1⟩

/-- Claim C8 (code bug, evaluated at the failing input): on a PENDING order
present in the shared dict, modify_order reports success and commits the
guarded durable update, but the in-memory order is left exactly as it was —
it still equals the original order rather than the merged one — because line
588 mutates a detached Manager-proxy copy that is never written back, while
the claim (and the source's own success log plus the reassignment pattern it
uses elsewhere) requires the merge. -/
theorem modify_order_unmerged_bug :
    (modify_order (sampleState sampleOrder sampleRow) 1 c8nd).1 = true ∧
    alookup (modify_order (sampleState sampleOrder sampleRow) 1 c8nd).2.db_orders 1 =
      some (apply_new_details sampleRow c8nd) ∧
    alookup (modify_order (sampleState sampleOrder sampleRow) 1 c8nd).2.orders 1 =
      some sampleOrder ∧
    sampleOrder ≠ merge_details sampleOrder c8nd := by decide

/-- Claim C9: when the external order-placement call fails for an eligible
order, the order is left in its prior state: nothing but the failed call log
changes, so executions_done is not incremented, no execution row is recorded,
no durable update or eviction happens, and the order stays in the caches for
re-evaluation on the next qualifying tick. -/
theorem failed_placement_leaves_state (env : KiteEnv) (s : EngineState) (oid : Nat)
    (o : Order) (tick : Tick) (h1 : env.place_ok = false)
    (h2 : o.executions_done < o.execution_limit)
    (h3 : should_execute o tick.last_price = some true) :
    check_and_execute_order env s oid o tick =
      { s with place_calls := s.place_calls ++ [mk_place_call o] } ∧
    (check_and_execute_order env s oid o tick).orders = s.orders ∧
    (check_and_execute_order env s oid o tick).order_cache = s.order_cache ∧
    (check_and_execute_order env s oid o tick).db_orders = s.db_orders ∧
    (check_and_execute_order env s oid o tick).db_executions = s.db_executions ∧
    (check_and_execute_order env s oid o tick).db_queue = s.db_queue := by
  have hok : ¬ env.place_ok = true := by rw [h1]; exact Bool.false_ne_true
  have heq : check_and_execute_order env s oid o tick =
      { s with place_calls := s.place_calls ++ [mk_place_call o] } := by
    unfold check_and_execute_order
    rw [if_neg (Nat.not_le.mpr h2), h3, if_neg hok]
  exact ⟨heq, by rw [heq], by rw [heq], by rw [heq], by rw [heq], by rw [heq]⟩

theorem failed_placement_witness :
    check_and_execute_order c9env c2state 1 c2order tick7 =
      { c2state with place_calls := c2state.place_calls ++ [mk_place_call c2order] } :=
  (failed_placement_leaves_state c9env c2state 1 c2order tick7 rfl (by decide)
    (by decide)).1

/-- Claim C10 (the known race of spec section 4.4, demonstrated): with a
shared executions counter at 0 and execution limit 1, the interleaving in
which both workers run the limit check of line 471 before either runs the
place-and-increment of lines 497-509 issues two external order-placement
calls, exceeding the execution limit. -/
theorem double_execution_race :
    race_calls (race_run (0, 1, 0, [0, 0]) [0, 1, 0, 1]) = 2 ∧
    race_limit (race_run (0, 1, 0, [0, 0]) [0, 1, 0, 1]) <
      race_calls (race_run (0, 1, 0, [0, 0]) [0, 1, 0, 1]) := by decide

end AlgoTrade
